import Mathlib

/- Shallow embedding of the translator-project repository: the front-panel
state machine (main.py), keyboard input dispatch (keyboard_input.py), the
microphone recorder (microphone_record.py), popularity-prior re-ranking
(language_popularity.py), the multi-locale STT re-scoring heuristic
(past-versions/translator_gui.py), Vosk auto model selection
(pi_translator.py), the Argos translation wrapper (argos_translator.py) and
the Argos installers (argos_install_helper.py, argos_installer.py).
Python floats are modelled as exact rationals, numpy int16 arrays as lists
of integers, and calls into external libraries (Vosk decoding, langdetect,
Argos Translate, sounddevice) as oracle parameters of the definitions. -/

namespace Main

/-- Digit-to-language table DIGIT_TO_LANG from main.py. -/
def DIGIT_TO_LANG : List (String × String) :=
  [("0", "en"), ("1", "zh"), ("2", "es"), ("3", "fr"), ("4", "de"),
   ("5", "ja"), ("6", "pt"), ("7", "it"), ("8", "ru"), ("9", "ko")]

/-- Controller state from main.py (class State). The mode is the literal
string the code stores; source = none means auto-detect. zeroTimes records
the timestamps of recent presses of the digit 0. -/
structure State where
  mode : String
  target : String
  source : Option String
  zeroTimes : List ℚ
deriving Repr, DecidableEq

/-- Initial state (State.__init__ in main.py). -/
def State.init : State :=
  { mode := "target", target := "en", source := some "en", zeroTimes := [] }

/-- State.toggle_mode from main.py: mode = "source" if mode == "target" else
"target". The speak side effect is not modelled. -/
def State.toggle_mode (s : State) : State :=
  { s with mode := if s.mode = "target" then "source" else "target" }

/-- Language-setting tail of State.feed_digit from main.py: look up the digit
in DIGIT_TO_LANG; on a miss the state is unchanged, otherwise the field
selected by the current mode is set. -/
def State.setLang (s : State) (d : String) : State :=
  match DIGIT_TO_LANG.lookup d with
  | none => s
  | some lang =>
    if s.mode = "target" then { s with target := lang }
    else { s with source := some lang }

/-- State.feed_digit from main.py; now stands for time.time() at this press.
On digit 0 the zero-press timestamps are filtered to the last second and the
press appended; three recent zeros reset to auto-detect → English. Any other
digit clears the zero-press timestamps before the language lookup. -/
def State.feed_digit (s : State) (d : String) (now : ℚ) : State :=
  if d = "0" then
    let zt := (s.zeroTimes.filter (fun t => now - t < 1)) ++ [now]
    if 3 ≤ zt.length then
      { s with zeroTimes := [], source := none, target := "en" }
    else
      State.setLang { s with zeroTimes := zt } d
  else
    State.setLang { s with zeroTimes := [] } d

end Main

namespace Util

/-- Python list.sort(key=f, reverse=True) is modelled as a sort with the
non-increasing-key relation. -/
def sortByKeyDesc {α : Type} (f : α → ℚ) (l : List α) : List α :=
  l.insertionSort (fun a b => f b ≤ f a)

/-- Python max(l, key=f) keeps the first element and replaces it only when a
strictly larger key appears, so it returns the first maximum; none on []. -/
def pyMax {α : Type} (f : α → ℚ) : List α → Option α
  | [] => none
  | x :: xs => some (xs.foldl (fun b c => if f b < f c then c else b) x)

end Util

namespace LanguagePopularity

/-- POPULARITY_PRIOR table from language_popularity.py (the identical table
also appears in past-versions/translator_gui.py). -/
def POPULARITY_PRIOR : List (String × ℚ) :=
  [("en", 1.00), ("zh", 0.95), ("es", 0.93), ("hi", 0.90), ("ar", 0.88), ("fr", 0.86),
   ("ru", 0.84), ("pt", 0.83), ("de", 0.82), ("ja", 0.80), ("id", 0.78), ("bn", 0.76),
   ("ur", 0.74), ("it", 0.73), ("tr", 0.72), ("vi", 0.71), ("ko", 0.70), ("fa", 0.69),
   ("pl", 0.67), ("uk", 0.66), ("nl", 0.65), ("th", 0.64), ("ro", 0.63), ("el", 0.62),
   ("sv", 0.61), ("cs", 0.60), ("hu", 0.59), ("he", 0.58), ("da", 0.57), ("fi", 0.56),
   ("no", 0.55), ("bg", 0.54), ("sk", 0.53), ("sr", 0.52), ("hr", 0.51), ("sl", 0.50),
   ("lt", 0.49), ("lv", 0.48), ("et", 0.47), ("ms", 0.46), ("ta", 0.45), ("te", 0.44),
   ("mr", 0.43), ("gu", 0.42), ("kn", 0.41), ("ml", 0.40), ("ne", 0.39), ("si", 0.38),
   ("sw", 0.37), ("az", 0.36), ("ka", 0.35), ("kk", 0.34), ("mn", 0.33), ("hy", 0.32),
   ("mk", 0.31), ("be", 0.30), ("bs", 0.29), ("af", 0.28), ("is", 0.27), ("ga", 0.26)]

/-- DEFAULT_PRIOR from language_popularity.py, applied to any unlisted code. -/
def DEFAULT_PRIOR : ℚ := 0.25

/-- prior from language_popularity.py: POPULARITY_PRIOR.get(code, DEFAULT_PRIOR). -/
def prior (code : String) : ℚ :=
  (POPULARITY_PRIOR.lookup code).getD DEFAULT_PRIOR

/-- rerank_with_popularity from language_popularity.py: map each candidate to
(code, prob, prior, posterior) and sort by posterior descending. -/
def rerank_with_popularity (candidates : List (String × ℚ)) :
    List (String × ℚ × ℚ × ℚ) :=
  let rows := candidates.map (fun cp => (cp.1, cp.2, prior cp.1, cp.2 * prior cp.1))
  Util.sortByKeyDesc (fun r => r.2.2.2) rows

end LanguagePopularity

namespace TranslatorGui

/-- detect_with_prior from past-versions/translator_gui.py. The langdetect
call is an oracle dl: the outer Option is langdetect availability (dl is None
when the import failed), the inner Option a raised exception, the list the
detector candidates (lang, prob). -/
def detect_with_prior (dl : Option (String → Option (List (String × ℚ))))
    (text : String) (min_conf : ℚ) : String × ℚ :=
  match dl with
  | none => ("en", 1)
  | some d =>
    let text := text.trim
    if text.length < 6 then ("en", 0.6)
    else
      match d text with
      | none => ("en", 0.6)
      | some candidates =>
        let scored := candidates.map (fun c =>
          ((c.1.splitOn "-").headD "",
           c.2 * LanguagePopularity.prior ((c.1.splitOn "-").headD "")))
        if scored.isEmpty then ("en", 0.6)
        else
          match Util.sortByKeyDesc (fun x => x.2) scored with
          | [] => ("en", 0.6)
          | best :: _ =>
            ((if min_conf ≤ best.2 then best.1 else "en"), max best.2 0.6)

/-- score_text_with_prior from past-versions/translator_gui.py: calls
detect_with_prior with min_conf=0.0 (the except branch cannot arise in the
model). -/
def score_text_with_prior (dl : Option (String → Option (List (String × ℚ))))
    (text : String) : String × ℚ :=
  detect_with_prior dl text 0

/-- One candidate row of try_locales_and_pick_best: the tuple
(loc, txt, lang, post, score) the code appends. -/
structure LocCand where
  loc : String
  txt : String
  lang : String
  post : ℚ
  score : ℚ
deriving Repr, DecidableEq

/-- Candidate-building loop of try_locales_and_pick_best from
past-versions/translator_gui.py; recognize is the oracle for
recognize_with_language on the captured audio (empty string = no result). -/
def loc_candidates (recognize : String → String)
    (dl : Option (String → Option (List (String × ℚ))))
    (locales : List String) : List LocCand :=
  locales.filterMap (fun loc =>
    let txt := recognize loc
    if txt = "" then none
    else
      let lp := score_text_with_prior dl txt
      some ⟨loc, txt, lp.1, lp.2, lp.2 * max 1 (txt.length : ℚ)⟩)

/-- try_locales_and_pick_best from past-versions/translator_gui.py: build the
candidates, return ("", "", "en", 0.0) when empty, otherwise sort by score
descending and return (loc, txt, lang, post) of the head. -/
def try_locales_and_pick_best (recognize : String → String)
    (dl : Option (String → Option (List (String × ℚ))))
    (locales : List String) : String × String × String × ℚ :=
  let candidates := loc_candidates recognize dl locales
  if candidates.isEmpty then ("", "", "en", 0)
  else
    match Util.sortByKeyDesc LocCand.score candidates with
    | [] => ("", "", "en", 0)
    | best :: _ => (best.loc, best.txt, best.lang, best.post)

end TranslatorGui

namespace PiTranslator

/-- Character class of the regex range CJK_KANJI_RANGE in pi_translator.py:
U+3400-U+4DBF, U+4E00-U+9FFF, U+F900-U+FAFF. -/
def is_kanji_char (c : Char) : Bool :=
  decide ((0x3400 ≤ c.toNat ∧ c.toNat ≤ 0x4DBF) ∨
          (0x4E00 ≤ c.toNat ∧ c.toNat ≤ 0x9FFF) ∨
          (0xF900 ≤ c.toNat ∧ c.toNat ≤ 0xFAFF))

/-- Character class of the regex range JPN_KANA_RANGE in pi_translator.py:
U+3040-U+309F, U+30A0-U+30FF, U+31F0-U+31FF. -/
def is_kana_char (c : Char) : Bool :=
  decide ((0x3040 ≤ c.toNat ∧ c.toNat ≤ 0x309F) ∨
          (0x30A0 ≤ c.toNat ∧ c.toNat ≤ 0x30FF) ∨
          (0x31F0 ≤ c.toNat ∧ c.toNat ≤ 0x31FF))

/-- Combined range CJK_RANGE = CJK_KANJI_RANGE + JPN_KANA_RANGE. -/
def is_cjk_char (c : Char) : Bool :=
  is_kanji_char c || is_kana_char c

/-- _looks_cjk from pi_translator.py: re.search finds at least one character
of the combined CJK range. -/
def looks_cjk (text : String) : Bool :=
  text.toList.any is_cjk_char

/-- cjk_ratio from pi_translator.py: number of CJK characters over
max(1, len(text)), and 0.0 on the empty string. -/
def cjk_ratio (text : String) : ℚ :=
  if text = "" then 0
  else ((text.toList.filter is_cjk_char).length : ℚ) / max 1 (text.length : ℚ)

/-- _avg_conf_from_result_json from pi_translator.py, applied to the list of
word confidences of the final result: their mean, or 0.0 when empty. -/
def avg_conf_from_result (confs : List ℚ) : ℚ :=
  if confs = [] then 0 else confs.sum / (confs.length : ℚ)

/-- Oracle for the external parts of stt_vosk_auto: whether the Vosk import
succeeded, whether load_vosk_model yields a model for a key, the transcript
and final-result word confidences _stream_decode_with_model produces for a
key on the captured audio, and detect_lang_code on a transcript. -/
structure VoskEnv where
  voskAvailable : Bool
  loadModel : String → Bool
  decode : String → String × List ℚ
  detect : String → Option String

/-- One entry of the candidates list built in stt_vosk_auto (the fields the
final selection uses). -/
structure VoskCand where
  lang : String
  text : String
  score : ℚ
deriving Repr, DecidableEq

/-- Candidate loop of stt_vosk_auto from pi_translator.py: for each model-map
entry whose model loads and whose transcript is non-empty, compute the score
0.6*conf + 0.15*length + match_bonus + script_bonus - zh_penalty. -/
def stt_candidates (env : VoskEnv) (model_map : List (String × String)) :
    List VoskCand :=
  model_map.filterMap (fun kv =>
    let lang_key := kv.1
    if !env.loadModel lang_key then none
    else
      let tc := env.decode lang_key
      let text := tc.1
      if text = "" then none
      else
        let avg_conf := avg_conf_from_result tc.2
        let guessed := (env.detect text).getD ""
        let looks := looks_cjk text
        let ratio := cjk_ratio text
        let is_cjk_lang := lang_key ∈ ["zh", "yue", "ja", "ko"]
        let length_score : ℚ := min (text.length : ℚ) 200 / 200
        let conf_score : ℚ := max 0 (min 1 avg_conf)
        let zh_penalty : ℚ :=
          if lang_key ∈ ["zh", "yue"] ∧ ratio < 0.20 then 1 else 0
        let match_bonus : ℚ :=
          (if guessed ≠ "" ∧ lang_key.startsWith guessed then 0.9 else 0) +
          (if guessed = "zh" ∧ lang_key ∈ ["zh", "yue"] then 0.2 else 0)
        let script_bonus : ℚ :=
          if (looks ∧ is_cjk_lang) ∨ (¬looks ∧ lang_key = "en") then 0.4 else 0
        let score :=
          0.6 * conf_score + 0.15 * length_score + match_bonus + script_bonus -
            zh_penalty
        some ⟨lang_key, text, score⟩)

/-- stt_vosk_auto from pi_translator.py: ("", None) when Vosk is unavailable
or no candidate was produced; otherwise the (text, lang) of the candidate
Python max picks (the first one of maximal score). -/
def stt_vosk_auto (env : VoskEnv) (model_map : List (String × String)) :
    String × Option String :=
  if !env.voskAvailable then ("", none)
  else
    match Util.pyMax VoskCand.score (stt_candidates env model_map) with
    | none => ("", none)
    | some best => (best.text, some best.lang)

end PiTranslator

namespace MicrophoneRecord

/-- Rounding of Python round(): round half to even on the exact value. -/
def roundHalfEven (q : ℚ) : ℤ :=
  let f := ⌊q⌋
  let r := q - (f : ℚ)
  if r < 1/2 then f
  else if 1/2 < r then f + 1
  else if f % 2 = 0 then f else f + 1

/-- Conversion numpy astype(int16) applies to a float: truncation toward 0
(values staying in the int16 range in our uses). -/
def ratTrunc (q : ℚ) : ℤ :=
  if 0 ≤ q then ⌊q⌋ else ⌈q⌉

/-- Value of np.interp at query j/n_out over the uniform grid
xp = [0/n, 1/n, ..., (n-1)/n] with ordinates fp (np.linspace with
endpoint=False); queries past the last grid point take the last ordinate. -/
def interpUniform (fp : List ℤ) (n n_out j : ℕ) : ℚ :=
  let t : ℚ := (j : ℚ) * (n : ℚ) / (n_out : ℚ)
  if (n : ℚ) - 1 ≤ t then ((fp.getD (n - 1) 0 : ℤ) : ℚ)
  else
    let i := (⌊t⌋).toNat
    let a : ℚ := ((fp.getD i 0 : ℤ) : ℚ)
    let b : ℚ := ((fp.getD (i + 1) 0 : ℤ) : ℚ)
    a + (b - a) * (t - (i : ℚ))

/-- _resample_linear from microphone_record.py, in exact rational arithmetic:
identity when the rates agree or the input is empty, otherwise linear
interpolation onto round(size * sr_out/sr_in) query points. -/
def _resample_linear (x : List ℤ) (sr_in sr_out : ℕ) : List ℤ :=
  if sr_in = sr_out ∨ x = [] then x
  else
    let n := x.length
    let n_out := (roundHalfEven ((n : ℚ) * (sr_out : ℚ) / (sr_in : ℚ))).toNat
    (List.range n_out).map (fun j => ratTrunc (interpUniform x n n_out j))

/-- State of MicrophoneRecorder from microphone_record.py: the _recording
flag, the queue of pending audio chunks in enqueue order (each chunk already
flattened — the stream is mono int16, samples as integers), and the
negotiated input samplerate _sr_in. -/
structure MicState where
  recording : Bool
  queue : List (List ℤ)
  sr_in : ℕ

/-- MicrophoneRecorder.stop from microphone_record.py: clear the recording
flag, drain the queue, return the empty int16 array when there were no
chunks, otherwise the concatenation, resampled to 16 kHz when the input rate
differs (the int16 dtype branch of the normalization is the identity). -/
def MicState.stop (s : MicState) : List ℤ × MicState :=
  let s' : MicState := { s with recording := false, queue := [] }
  if s.queue.isEmpty then ([], s')
  else
    let audio := s.queue.flatten
    let audio := if s.sr_in ≠ 16000 then _resample_linear audio s.sr_in 16000 else audio
    (audio, s')

end MicrophoneRecord

namespace Keyboard

/-- Keys as keyboard_input.py distinguishes them: the pynput special keys the
code names, and character keys (pynput KeyCode) carrying an optional virtual
key code and an optional character. -/
inductive PKey where
  | numLock
  | delete
  | esc
  | backspace
  | keyCode (vk : Option Nat) (ch : Option Char)
  | other
deriving Repr, DecidableEq

/-- VK_TO_CHAR from keyboard_input.py: numpad virtual-key codes. -/
def VK_TO_CHAR : List (Nat × Char) :=
  [(96, '0'), (97, '1'), (98, '2'), (99, '3'), (100, '4'),
   (101, '5'), (102, '6'), (103, '7'), (104, '8'), (105, '9'), (110, '.')]

/-- _normalize_char from keyboard_input.py: numpad vk lookup first, then the
Delete fallback for numpad '.', then plain character keys (locale comma
becomes a dot; only digits and the dot pass). -/
def _normalize_char (key : PKey) : Option Char :=
  match key with
  | PKey.keyCode vk ch =>
    match vk.bind (fun v => VK_TO_CHAR.lookup v) with
    | some c => some c
    | none =>
      match ch with
      | none => none
      | some c0 =>
        let c := if c0 = ',' then '.' else c0
        if c.isDigit ∨ c = '.' then some c else none
  | PKey.delete => some '.'
  | _ => none

/-- Callbacks of KeyboardCallbacks in keyboard_input.py, as emitted events. -/
inductive CB where
  | digit (c : Char)
  | pttDown
  | pttUp
  | toggleMode
  | exitCb
deriving Repr, DecidableEq

/-- Key press/release events fed to the pynput listener. -/
inductive KeyEvent where
  | press (k : PKey)
  | release (k : PKey)
deriving Repr, DecidableEq

/-- Backspace clause of _on_press: start PTT only when not already active. -/
def pressTail (ptt : Bool) (key : PKey) : List CB × Bool :=
  if key = PKey.backspace ∧ ¬ptt then ([CB.pttDown], true) else ([], ptt)

/-- KeyboardInput._on_press from keyboard_input.py: emitted callbacks and the
new _ptt_active flag. NumLock is ignored, digits dispatch on_digit, Backspace
starts PTT once per hold. -/
def onPress (ptt : Bool) (key : PKey) : List CB × Bool :=
  if key = PKey.numLock then ([], ptt)
  else
    match _normalize_char key with
    | some c => if c.isDigit then ([CB.digit c], ptt) else pressTail ptt key
    | none => pressTail ptt key

/-- Backspace clause of _on_release: stop PTT only while active. -/
def releaseTail (ptt : Bool) (key : PKey) : List CB × Bool × Bool :=
  if key = PKey.backspace ∧ ptt then ([CB.pttUp], false, false)
  else ([], ptt, false)

/-- KeyboardInput._on_release from keyboard_input.py: emitted callbacks, new
_ptt_active flag, and whether the listener stops (Esc returns False). The
on_exit callback is wired in main.py. -/
def onRelease (ptt : Bool) (key : PKey) : List CB × Bool × Bool :=
  if key = PKey.esc then ([CB.exitCb], ptt, true)
  else if key = PKey.numLock then ([], ptt, false)
  else
    match _normalize_char key with
    | some c => if c = '.' then ([CB.toggleMode], ptt, false) else releaseTail ptt key
    | none => releaseTail ptt key

/-- Listener run: process events in order from a PTT state, collecting the
emitted callbacks; an Esc release stops the listener. -/
def run (ptt : Bool) : List KeyEvent → List CB
  | [] => []
  | KeyEvent.press k :: rest =>
    let r := onPress ptt k
    r.1 ++ run r.2 rest
  | KeyEvent.release k :: rest =>
    let r := onRelease ptt k
    if r.2.2 then r.1 else r.1 ++ run r.2.1 rest

/-- Projection of an emitted-callback trace to its PTT events. -/
def pttProj (l : List CB) : List CB :=
  l.filter (fun c => c = CB.pttDown ∨ c = CB.pttUp)

/-- Strict alternation of PTT callbacks from a given PTT state: when
inactive the next PTT callback must be pttDown, when active pttUp. -/
def Alt : Bool → List CB → Prop
  | _, [] => True
  | false, CB.pttDown :: r => Alt true r
  | true, CB.pttUp :: r => Alt false r
  | _, _ => False

end Keyboard

namespace ArgosTranslator

/-- BRIDGE_LANG from argos_translator.py. -/
def BRIDGE_LANG : String := "en"

/-- Oracle for the Argos Translate library as argos_translator.py uses it:
whether the import succeeds, which language objects get_installed_languages
yields, for which pairs get_translation succeeds, and what t.translate
returns (none models a raised exception). -/
structure ArgosEnv where
  available : Bool
  hasLang : String → Bool
  hasTranslation : String → String → Bool
  translateResult : String → String → String → Option String

/-- _pair_exists from argos_translator.py: both language objects installed
and get_translation succeeding. -/
def _pair_exists (env : ArgosEnv) (src dst : String) : Bool :=
  env.hasLang src && env.hasLang dst && env.hasTranslation src dst

/-- _translate_direct_cached from argos_translator.py: the input text on any
failure (module missing, language object missing, get_translation or
translate raising), otherwise the library result. -/
def _translate_direct_cached (env : ArgosEnv) (src dst text : String) : String :=
  if !env.available then text
  else if !(env.hasLang src && env.hasLang dst) then text
  else if !env.hasTranslation src dst then text
  else
    match env.translateResult src dst text with
    | none => text
    | some out => out

/-- _translate_direct from argos_translator.py: success is
(out.strip() != "" and out != text) or (src == dst and out == text). -/
def _translate_direct (env : ArgosEnv) (src dst text : String) : Bool × String :=
  let out := _translate_direct_cached env src dst text
  (decide ((out.trim ≠ "" ∧ out ≠ text) ∨ (src = dst ∧ out = text)), out)

/-- _can_bridge from argos_translator.py: src and dst both differ from en and
both bridge legs exist. -/
def _can_bridge (env : ArgosEnv) (src dst : String) : Bool :=
  decide (src ≠ BRIDGE_LANG) && decide (dst ≠ BRIDGE_LANG) &&
  _pair_exists env src BRIDGE_LANG && _pair_exists env BRIDGE_LANG dst

/-- translate_text from argos_translator.py: identity on empty/whitespace
text or missing module; direct pair when installed and successful; otherwise
the en-bridge when available; otherwise the original text. -/
def translate_text (env : ArgosEnv) (src_code dst_code text : String) : String :=
  if text.trim = "" then text
  else if !env.available then text
  else if _pair_exists env src_code dst_code ∧
          (_translate_direct env src_code dst_code text).1 then
    (_translate_direct env src_code dst_code text).2
  else if _can_bridge env src_code dst_code then
    let r1 := _translate_direct env src_code BRIDGE_LANG text
    if ¬r1.1 ∨ r1.2.trim = "" then text
    else
      let r2 := _translate_direct env BRIDGE_LANG dst_code r1.2
      if r2.1 then r2.2 else text
  else text

end ArgosTranslator

namespace ArgosInstall

/-- Oracle for the Argos package manager as argos_install_helper.py uses it:
whether a pair is listed in the index, and the outcome of the n-th
download-and-install attempt made against the library (false models a raised
exception). -/
structure PkgEnv where
  findPkg : String → String → Bool
  attempt : ℕ → Bool

/-- install_pair from argos_install_helper.py: find the package in the index
and make one exception-wrapped download+install attempt; attemptIdx counts
the attempts already made against the oracle. -/
def install_pair (env : PkgEnv) (attemptIdx : ℕ) (src dst : String) :
    Bool × String :=
  if !env.findPkg src dst then
    (false, "No package found for " ++ src ++ "->" ++ dst ++ " in the Argos index.")
  else if env.attempt attemptIdx then
    (true, "Installed " ++ src ++ "->" ++ dst)
  else
    (false, "Install failed for " ++ src ++ "->" ++ dst)

/-- Oracle for ensure_pair from argos_installer.py: whether the Argos import
succeeds, whether the pair is already installed (language objects with a
working get_translation), whether the index lists the package, and the
outcome of the n-th download+install attempt. -/
structure EnsureEnv where
  importOk : Bool
  installedPair : String → String → Bool
  indexHasPkg : String → String → Bool
  attempt : ℕ → Bool

/-- ensure_pair from argos_installer.py: false when the import fails, true
when the pair is already installed, otherwise one exception-wrapped
download+install attempt of the package found in the index. -/
def ensure_pair (env : EnsureEnv) (attemptIdx : ℕ) (src dst : String) : Bool :=
  if !env.importOk then false
  else if env.installedPair src dst then true
  else if !env.indexHasPkg src dst then false
  else env.attempt attemptIdx

end ArgosInstall

/-- C7: toggle_mode flips mode between exactly the two values "target" and
"source", changes no other field, and applying it twice returns a State whose
mode is one of those two values to its original value. -/
theorem toggle_mode_involution (s : Main.State)
    (h : s.mode = "target" ∨ s.mode = "source") :
    s.toggle_mode.toggle_mode = s ∧
    s.toggle_mode.mode ≠ s.mode ∧
    (s.toggle_mode.mode = "target" ∨ s.toggle_mode.mode = "source") ∧
    s.toggle_mode.target = s.target ∧
    s.toggle_mode.source = s.source ∧
    s.toggle_mode.zeroTimes = s.zeroTimes := by
  obtain ⟨m, t, src, z⟩ := s
  rcases h with h | h <;> subst h <;>
    simp [Main.State.toggle_mode]

/-- Witness for C7 at the initial state. -/
theorem toggle_mode_involution_witness :
    (Main.State.init.mode = "target" ∨ Main.State.init.mode = "source") ∧
    Main.State.init.toggle_mode.toggle_mode = Main.State.init :=
  ⟨Or.inl rfl, (toggle_mode_involution Main.State.init (Or.inl rfl)).1⟩

/-- C6: for a digit in DIGIT_TO_LANG that does not complete a third
consecutive zero within one second, feed_digit sets the field selected by the
mode and leaves the other language field and the mode unchanged; for a digit
outside DIGIT_TO_LANG, source, target and mode are all unchanged. -/
theorem feed_digit_sets_language (s : Main.State) (d : String) (now : ℚ) :
    (Main.DIGIT_TO_LANG.lookup d = none →
      (s.feed_digit d now).source = s.source ∧
      (s.feed_digit d now).target = s.target ∧
      (s.feed_digit d now).mode = s.mode) ∧
    (∀ lang, Main.DIGIT_TO_LANG.lookup d = some lang →
      ¬(d = "0" ∧ 3 ≤ (s.zeroTimes.filter (fun t => now - t < 1)).length + 1) →
      (s.mode = "target" →
        (s.feed_digit d now).target = lang ∧
        (s.feed_digit d now).source = s.source ∧
        (s.feed_digit d now).mode = s.mode) ∧
      (s.mode = "source" →
        (s.feed_digit d now).source = some lang ∧
        (s.feed_digit d now).target = s.target ∧
        (s.feed_digit d now).mode = s.mode)) := by
  have hst : ("source" : String) ≠ "target" := by decide
  constructor
  · intro hmiss
    have hd0 : d ≠ "0" := by
      intro h; rw [h] at hmiss; exact absurd hmiss (by decide)
    simp [Main.State.feed_digit, hd0, Main.State.setLang, hmiss]
  · intro lang hlang hno
    by_cases hd0 : d = "0"
    · subst hd0
      have hlen : ¬ 2 ≤ (s.zeroTimes.filter (fun t => now - t < 1)).length := by
        intro h; exact hno ⟨rfl, by omega⟩
      constructor
      · intro hm
        simp [Main.State.feed_digit, hlen, Main.State.setLang, hlang, hm]
      · intro hm
        simp [Main.State.feed_digit, hlen, Main.State.setLang, hlang, hm, hst]
    · constructor
      · intro hm
        simp [Main.State.feed_digit, hd0, Main.State.setLang, hlang, hm]
      · intro hm
        simp [Main.State.feed_digit, hd0, Main.State.setLang, hlang, hm, hst]

/-- Witness for C6: digit 5 in target mode sets the target to Japanese, and a
non-digit key changes none of the language fields. -/
theorem feed_digit_sets_language_witness :
    ((Main.State.init.feed_digit "5" 0).target = "ja" ∧
     (Main.State.init.feed_digit "5" 0).source = Main.State.init.source ∧
     (Main.State.init.feed_digit "5" 0).mode = Main.State.init.mode) ∧
    ((Main.State.init.feed_digit "x" 0).source = Main.State.init.source ∧
     (Main.State.init.feed_digit "x" 0).target = Main.State.init.target ∧
     (Main.State.init.feed_digit "x" 0).mode = Main.State.init.mode) :=
  ⟨((feed_digit_sets_language Main.State.init "5" 0).2 "ja" (by decide)
      (by decide)).1 rfl,
   (feed_digit_sets_language Main.State.init "x" 0).1 (by decide)⟩

/-- Helper: State.setLang never touches the zero-press timestamps. -/
theorem setLang_zeroTimes (s : Main.State) (d : String) :
    (Main.State.setLang s d).zeroTimes = s.zeroTimes := by
  simp only [Main.State.setLang]
  split
  · rfl
  · split <;> rfl

/-- Counterexample to C9 as stated for every State: starting from a state that
already has two recent zero-press timestamps, three presses of 0 within one
second trigger the reset on the first press, and the remaining two presses
repopulate the timestamp list, so it is not cleared afterwards. -/
theorem quick_reset_counterexample :
    ¬(((((⟨"target", "ja", some "fr", [0, 0]⟩ : Main.State).feed_digit "0" 0).feed_digit
          "0" (1/2)).feed_digit "0" (3/4)).source = none ∧
      ((((⟨"target", "ja", some "fr", [0, 0]⟩ : Main.State).feed_digit "0" 0).feed_digit
          "0" (1/2)).feed_digit "0" (3/4)).target = "en" ∧
      ((((⟨"target", "ja", some "fr", [0, 0]⟩ : Main.State).feed_digit "0" 0).feed_digit
          "0" (1/2)).feed_digit "0" (3/4)).zeroTimes = []) := by
  have hstep : ((((⟨"target", "ja", some "fr", [0, 0]⟩ : Main.State).feed_digit "0" 0).feed_digit
      "0" (1/2)).feed_digit "0" (3/4)) = ⟨"target", "en", none, [1/2, 3/4]⟩ := by
    norm_num [Main.State.feed_digit, Main.State.setLang, Main.DIGIT_TO_LANG, List.lookup]
  rw [hstep]
  intro h
  exact absurd h.2.2 (by simp)

/-- C9 amended: from a State with no recorded zero-press timestamps, feeding
the digit 0 three times with all three presses inside a one-second window
sets source to auto-detect, target to English and clears the timestamps; and
from any State, feeding a non-0 digit clears the recorded timestamps. -/
theorem quick_reset_amended (s : Main.State) (t1 t2 t3 : ℚ)
    (hz : s.zeroTimes = []) (h12 : t1 ≤ t2) (h23 : t2 ≤ t3) (hw : t3 - t1 < 1) :
    ((((s.feed_digit "0" t1).feed_digit "0" t2).feed_digit "0" t3).source = none ∧
     (((s.feed_digit "0" t1).feed_digit "0" t2).feed_digit "0" t3).target = "en" ∧
     (((s.feed_digit "0" t1).feed_digit "0" t2).feed_digit "0" t3).zeroTimes = []) ∧
    (∀ (s2 : Main.State) (d : String) (now : ℚ), d ≠ "0" →
      (s2.feed_digit d now).zeroTimes = []) := by
  constructor
  · have e2 : t2 - t1 < 1 := by linarith
    have e4 : t3 - t2 < 1 := by linarith
    by_cases hm : s.mode = "target" <;>
      simp [Main.State.feed_digit, Main.State.setLang, Main.DIGIT_TO_LANG, List.lookup,
        hz, hm, e2, e4, hw]
  · intro s2 d now hd
    simp only [Main.State.feed_digit, if_neg hd]
    exact setLang_zeroTimes _ _

/-- Witness for C9 amended at the initial state with presses at 0, 1/4, 1/2. -/
theorem quick_reset_amended_witness :
    (Main.State.init.zeroTimes = [] ∧ (0 : ℚ) ≤ 1/4 ∧ (1/4 : ℚ) ≤ 1/2 ∧
      (1/2 : ℚ) - 0 < 1) ∧
    (((Main.State.init.feed_digit "0" 0).feed_digit "0" (1/4)).feed_digit
        "0" (1/2)).source = none :=
  ⟨⟨rfl, by norm_num, by norm_num, by norm_num⟩,
   ((quick_reset_amended Main.State.init 0 (1/4) (1/2) rfl (by norm_num)
      (by norm_num) (by norm_num)).1).1⟩

/-- Helper: sortByKeyDesc permutes its input. -/
theorem sortByKeyDesc_perm {α : Type} (f : α → ℚ) (l : List α) :
    List.Perm (Util.sortByKeyDesc f l) l :=
  List.perm_insertionSort _ l

/-- Helper: sortByKeyDesc sorts by non-increasing key. -/
theorem sortByKeyDesc_sorted {α : Type} (f : α → ℚ) (l : List α) :
    (Util.sortByKeyDesc f l).Sorted (fun a b => f b ≤ f a) := by
  haveI ht : IsTotal α (fun a b => f b ≤ f a) := ⟨fun a b => le_total (f b) (f a)⟩
  haveI htr : IsTrans α (fun a b => f b ≤ f a) := ⟨fun a b c h1 h2 => le_trans h2 h1⟩
  exact List.sorted_insertionSort _ l

/-- Helper: the head of sortByKeyDesc is a key-maximal element of the input. -/
theorem sortByKeyDesc_head_max {α : Type} (f : α → ℚ) (l : List α) (c : α)
    (rest : List α) (h : Util.sortByKeyDesc f l = c :: rest) :
    c ∈ l ∧ ∀ x ∈ l, f x ≤ f c := by
  have hperm := sortByKeyDesc_perm f l
  constructor
  · exact hperm.subset (by rw [h]; exact List.mem_cons_self _ _)
  · intro x hx
    have hx' : x ∈ c :: rest := by rw [← h]; exact hperm.symm.subset hx
    have hs := sortByKeyDesc_sorted f l
    rw [h] at hs
    rcases List.mem_cons.mp hx' with rfl | hx'
    · exact le_refl _
    · exact (List.sorted_cons.mp hs).1 x hx'

/-- C3: rerank_with_popularity returns exactly one tuple per input entry —
(code, prob, prior, posterior) with prior the POPULARITY_PRIOR value (0.25
for unlisted codes) and posterior = prob * prior — and the returned list is
sorted by non-increasing posterior. -/
theorem rerank_with_popularity_spec (candidates : List (String × ℚ)) :
    (LanguagePopularity.rerank_with_popularity candidates).Perm
      (candidates.map (fun cp =>
        (cp.1, cp.2, LanguagePopularity.prior cp.1,
         cp.2 * LanguagePopularity.prior cp.1))) ∧
    (LanguagePopularity.rerank_with_popularity candidates).Sorted
      (fun a b => b.2.2.2 ≤ a.2.2.2) ∧
    (∀ code q, LanguagePopularity.POPULARITY_PRIOR.lookup code = some q →
      LanguagePopularity.prior code = q) ∧
    (∀ code, LanguagePopularity.POPULARITY_PRIOR.lookup code = none →
      LanguagePopularity.prior code = 0.25) := by
  refine ⟨?_, ?_, ?_, ?_⟩
  · simp only [LanguagePopularity.rerank_with_popularity]
    exact sortByKeyDesc_perm _ _
  · simp only [LanguagePopularity.rerank_with_popularity]
    exact sortByKeyDesc_sorted _ _
  · intro code q hq
    simp [LanguagePopularity.prior, hq]
  · intro code hq
    simp [LanguagePopularity.prior, hq, LanguagePopularity.DEFAULT_PRIOR]

/-- Witness for C3: prior of a listed code and of an unlisted code. -/
theorem rerank_with_popularity_spec_witness :
    LanguagePopularity.prior "zh" = 0.95 ∧ LanguagePopularity.prior "xx" = 0.25 :=
  ⟨(rerank_with_popularity_spec []).2.2.1 "zh" 0.95 rfl,
   (rerank_with_popularity_spec []).2.2.2 "xx" rfl⟩

/-- C2: try_locales_and_pick_best scores each locale whose recognition gives
a non-empty transcript as posterior * max(1, len(transcript)) with the
posterior from the popularity-prior detector, returns the (locale,
transcript, detected_lang, posterior) of a maximal-score candidate, and
returns ("", "", "en", 0.0) when no locale yields a transcript. -/
theorem try_locales_and_pick_best_spec (recognize : String → String)
    (dl : Option (String → Option (List (String × ℚ)))) (locales : List String) :
    (TranslatorGui.loc_candidates recognize dl locales = [] →
      TranslatorGui.try_locales_and_pick_best recognize dl locales =
        ("", "", "en", 0)) ∧
    (∀ c ∈ TranslatorGui.loc_candidates recognize dl locales,
      c.txt = recognize c.loc ∧ c.txt ≠ "" ∧ c.loc ∈ locales ∧
      (c.lang, c.post) = TranslatorGui.score_text_with_prior dl c.txt ∧
      c.score = c.post * max 1 (c.txt.length : ℚ)) ∧
    (∀ loc ∈ locales, recognize loc ≠ "" →
      (⟨loc, recognize loc,
        (TranslatorGui.score_text_with_prior dl (recognize loc)).1,
        (TranslatorGui.score_text_with_prior dl (recognize loc)).2,
        (TranslatorGui.score_text_with_prior dl (recognize loc)).2 *
          max 1 ((recognize loc).length : ℚ)⟩ : TranslatorGui.LocCand) ∈
        TranslatorGui.loc_candidates recognize dl locales) ∧
    (TranslatorGui.loc_candidates recognize dl locales ≠ [] →
      ∃ c ∈ TranslatorGui.loc_candidates recognize dl locales,
        TranslatorGui.try_locales_and_pick_best recognize dl locales =
          (c.loc, c.txt, c.lang, c.post) ∧
        ∀ x ∈ TranslatorGui.loc_candidates recognize dl locales,
          x.score ≤ c.score) := by
  refine ⟨?_, ?_, ?_, ?_⟩
  · intro h
    simp [TranslatorGui.try_locales_and_pick_best, h]
  · intro c hc
    simp only [TranslatorGui.loc_candidates, List.mem_filterMap] at hc
    obtain ⟨loc, hloc, heq⟩ := hc
    by_cases he : recognize loc = ""
    · rw [if_pos he] at heq
      exact absurd heq (by simp)
    · rw [if_neg he] at heq
      injection heq with heq
      subst heq
      exact ⟨rfl, he, hloc, Prod.mk.eta.symm, rfl⟩
  · intro loc hloc he
    simp only [TranslatorGui.loc_candidates, List.mem_filterMap]
    exact ⟨loc, hloc, by rw [if_neg he]⟩
  · intro hne
    rcases hcs : Util.sortByKeyDesc TranslatorGui.LocCand.score
        (TranslatorGui.loc_candidates recognize dl locales) with _ | ⟨c, rest⟩
    · exfalso
      have hl := (sortByKeyDesc_perm TranslatorGui.LocCand.score
        (TranslatorGui.loc_candidates recognize dl locales)).length_eq
      rw [hcs] at hl
      exact hne (List.eq_nil_of_length_eq_zero hl.symm)
    · obtain ⟨hmem, hmax⟩ := sortByKeyDesc_head_max _ _ c rest hcs
      refine ⟨c, hmem, ?_, hmax⟩
      have hemp : (TranslatorGui.loc_candidates recognize dl locales).isEmpty = false := by
        cases h : TranslatorGui.loc_candidates recognize dl locales with
        | nil => exact absurd h hne
        | cons a l => rfl
      simp only [TranslatorGui.try_locales_and_pick_best, hemp, hcs]
      rfl

/-- Witness for C2 with one recognizing locale and langdetect unavailable. -/
theorem try_locales_and_pick_best_spec_witness :
    TranslatorGui.loc_candidates
      (fun loc => if loc = "en-US" then "hello there" else "") none
      ["en-US", "zh-CN"] ≠ [] ∧
    ∃ c ∈ TranslatorGui.loc_candidates
        (fun loc => if loc = "en-US" then "hello there" else "") none
        ["en-US", "zh-CN"],
      TranslatorGui.try_locales_and_pick_best
          (fun loc => if loc = "en-US" then "hello there" else "") none
          ["en-US", "zh-CN"] = (c.loc, c.txt, c.lang, c.post) ∧
      ∀ x ∈ TranslatorGui.loc_candidates
          (fun loc => if loc = "en-US" then "hello there" else "") none
          ["en-US", "zh-CN"], x.score ≤ c.score :=
  ⟨by decide,
   (try_locales_and_pick_best_spec
      (fun loc => if loc = "en-US" then "hello there" else "") none
      ["en-US", "zh-CN"]).2.2.2 (by decide)⟩

/-- Helper: the Python-max fold over xs starting from b returns b or a member
of xs, its key dominates b, and it dominates every member of xs. -/
theorem pyFold_spec {α : Type} (f : α → ℚ) (xs : List α) : ∀ b : α,
    (xs.foldl (fun b c => if f b < f c then c else b) b = b ∨
     xs.foldl (fun b c => if f b < f c then c else b) b ∈ xs) ∧
    f b ≤ f (xs.foldl (fun b c => if f b < f c then c else b) b) ∧
    ∀ x ∈ xs, f x ≤ f (xs.foldl (fun b c => if f b < f c then c else b) b) := by
  induction xs with
  | nil => intro b; exact ⟨Or.inl rfl, le_refl _, by simp⟩
  | cons x xs ih =>
    intro b
    obtain ⟨hmem, hle, hall⟩ := ih (if f b < f x then x else b)
    simp only [List.foldl_cons]
    refine ⟨?_, ?_, ?_⟩
    · rcases hmem with h | h
      · rw [h]
        by_cases hbx : f b < f x
        · rw [if_pos hbx]; exact Or.inr (List.mem_cons_self _ _)
        · rw [if_neg hbx]; exact Or.inl rfl
      · exact Or.inr (List.mem_cons_of_mem _ h)
    · refine le_trans ?_ hle
      by_cases hbx : f b < f x
      · rw [if_pos hbx]; exact le_of_lt hbx
      · rw [if_neg hbx]
    · intro y hy
      rcases List.mem_cons.mp hy with rfl | hy
      · refine le_trans ?_ hle
        by_cases hbx : f b < f y
        · rw [if_pos hbx]
        · rw [if_neg hbx]; exact le_of_not_lt hbx
      · exact hall y hy

/-- Helper: Python max(l, key=f) returns a member whose key dominates l. -/
theorem pyMax_spec {α : Type} (f : α → ℚ) (l : List α) (c : α)
    (h : Util.pyMax f l = some c) : c ∈ l ∧ ∀ x ∈ l, f x ≤ f c := by
  cases l with
  | nil => simp [Util.pyMax] at h
  | cons x xs =>
    simp only [Util.pyMax, Option.some.injEq] at h
    subst h
    obtain ⟨hmem, hle, hall⟩ := pyFold_spec f xs x
    refine ⟨?_, ?_⟩
    · rcases hmem with h | h
      · rw [h]; exact List.mem_cons_self _ _
      · exact List.mem_cons_of_mem _ h
    · intro y hy
      rcases List.mem_cons.mp hy with rfl | hy
      · exact hle
      · exact hall y hy

/-- Helper: Python max(l, key=f) is none exactly on the empty list. -/
theorem pyMax_eq_none {α : Type} (f : α → ℚ) (l : List α) :
    Util.pyMax f l = none ↔ l = [] := by
  cases l <;> simp [Util.pyMax]

/-- C1: stt_vosk_auto scores each loaded model with a non-empty transcript as
0.6*conf_score + 0.15*length_score + match_bonus + script_bonus - zh_penalty
(conf_score the clamped mean word confidence, length_score min(len,200)/200,
match_bonus 0.9 for a detector-guess key-prefix match plus 0.2 for the
zh-guess zh/yue keys, script_bonus 0.4 for a CJK-looking transcript with a
CJK key or a non-CJK transcript with key "en", zh_penalty 1.0 for zh/yue
keys whose transcript has CJK ratio below 0.20); it returns the (text, lang)
of a maximal-score candidate and ("", none) when Vosk is unavailable or no
model yields a non-empty transcript. -/
theorem stt_vosk_auto_spec (env : PiTranslator.VoskEnv)
    (model_map : List (String × String)) :
    (env.voskAvailable = false →
      PiTranslator.stt_vosk_auto env model_map = ("", none)) ∧
    (PiTranslator.stt_candidates env model_map = [] →
      PiTranslator.stt_vosk_auto env model_map = ("", none)) ∧
    (PiTranslator.stt_candidates env model_map = [] ↔
      ∀ kv ∈ model_map, env.loadModel kv.1 = true → (env.decode kv.1).1 = "") ∧
    (∀ c ∈ PiTranslator.stt_candidates env model_map,
      c.text = (env.decode c.lang).1 ∧ c.text ≠ "" ∧
      env.loadModel c.lang = true ∧ c.lang ∈ model_map.map Prod.fst ∧
      c.score =
        0.6 * max 0 (min 1 (PiTranslator.avg_conf_from_result (env.decode c.lang).2)) +
        0.15 * (min (c.text.length : ℚ) 200 / 200) +
        ((if (env.detect c.text).getD "" ≠ "" ∧
             c.lang.startsWith ((env.detect c.text).getD "") then (0.9 : ℚ) else 0) +
         (if (env.detect c.text).getD "" = "zh" ∧ (c.lang = "zh" ∨ c.lang = "yue")
          then (0.2 : ℚ) else 0)) +
        (if (PiTranslator.looks_cjk c.text ∧
              (c.lang = "zh" ∨ c.lang = "yue" ∨ c.lang = "ja" ∨ c.lang = "ko")) ∨
            (¬PiTranslator.looks_cjk c.text ∧ c.lang = "en")
         then (0.4 : ℚ) else 0) -
        (if (c.lang = "zh" ∨ c.lang = "yue") ∧ PiTranslator.cjk_ratio c.text < 0.20
         then (1 : ℚ) else 0)) ∧
    (env.voskAvailable = true → PiTranslator.stt_candidates env model_map ≠ [] →
      ∃ c ∈ PiTranslator.stt_candidates env model_map,
        PiTranslator.stt_vosk_auto env model_map = (c.text, some c.lang) ∧
        ∀ x ∈ PiTranslator.stt_candidates env model_map, x.score ≤ c.score) := by
  refine ⟨?_, ?_, ?_, ?_, ?_⟩
  · intro h
    simp [PiTranslator.stt_vosk_auto, h]
  · intro h
    simp [PiTranslator.stt_vosk_auto, h, Util.pyMax]
  · rw [PiTranslator.stt_candidates, List.filterMap_eq_nil_iff]
    constructor
    · intro h kv hkv hload
      have hthis := h kv hkv
      simp only [hload, Bool.not_true] at hthis
      rw [if_neg (by simp)] at hthis
      by_contra hne
      rw [if_neg hne] at hthis
      exact absurd hthis (by simp)
    · intro h kv hkv
      by_cases hload : env.loadModel kv.1 = true
      · simp [hload, h kv hkv hload]
      · have hload' : env.loadModel kv.1 = false := by simpa using hload
        simp [hload']
  · intro c hc
    simp only [PiTranslator.stt_candidates, List.mem_filterMap] at hc
    obtain ⟨kv, hkv, heq⟩ := hc
    by_cases hload : env.loadModel kv.1 = true
    · rw [if_neg (by simp [hload])] at heq
      by_cases htext : (env.decode kv.1).1 = ""
      · rw [if_pos htext] at heq
        exact absurd heq (by simp)
      · rw [if_neg htext] at heq
        injection heq with heq
        subst heq
        refine ⟨rfl, htext, hload, List.mem_map_of_mem _ hkv, ?_⟩
        simp only [List.mem_cons, List.mem_singleton, List.not_mem_nil, or_false]
    · rw [if_pos (by simp [hload])] at heq
      exact absurd heq (by simp)
  · intro havail hne
    rcases hp : Util.pyMax PiTranslator.VoskCand.score
        (PiTranslator.stt_candidates env model_map) with _ | c
    · exact absurd ((pyMax_eq_none _ _).mp hp) hne
    · obtain ⟨hmem, hmax⟩ := pyMax_spec _ _ c hp
      refine ⟨c, hmem, ?_, hmax⟩
      simp [PiTranslator.stt_vosk_auto, havail, hp]

/-- Witness for C1: Vosk available, the "en" model transcribes "hello", the
"zh" model yields an empty transcript. -/
theorem stt_vosk_auto_spec_witness :
    (⟨true, fun _ => true, fun k => (if k = "en" then "hello" else "", [1/2, 1]),
      fun _ => some "en"⟩ : PiTranslator.VoskEnv).voskAvailable = true ∧
    PiTranslator.stt_candidates
      ⟨true, fun _ => true, fun k => (if k = "en" then "hello" else "", [1/2, 1]),
       fun _ => some "en"⟩ [("en", "p"), ("zh", "q")] ≠ [] ∧
    ∃ c ∈ PiTranslator.stt_candidates
        ⟨true, fun _ => true, fun k => (if k = "en" then "hello" else "", [1/2, 1]),
         fun _ => some "en"⟩ [("en", "p"), ("zh", "q")],
      PiTranslator.stt_vosk_auto
          ⟨true, fun _ => true, fun k => (if k = "en" then "hello" else "", [1/2, 1]),
           fun _ => some "en"⟩ [("en", "p"), ("zh", "q")] = (c.text, some c.lang) ∧
      ∀ x ∈ PiTranslator.stt_candidates
          ⟨true, fun _ => true, fun k => (if k = "en" then "hello" else "", [1/2, 1]),
           fun _ => some "en"⟩ [("en", "p"), ("zh", "q")], x.score ≤ c.score :=
  ⟨rfl, by decide,
   (stt_vosk_auto_spec
      ⟨true, fun _ => true, fun k => (if k = "en" then "hello" else "", [1/2, 1]),
       fun _ => some "en"⟩ [("en", "p"), ("zh", "q")]).2.2.2.2 rfl (by decide)⟩

/-- Counterexample for C4: the installers make a single download+install
attempt with no retry. With the pair listed in the index and an oracle that
fails the first attempt but succeeds on the next, install_pair and
ensure_pair both report failure rather than succeeding. -/
theorem install_retry_counterexample :
    (⟨fun _ _ => true, fun n => n != 0⟩ : ArgosInstall.PkgEnv).attempt 0 = false ∧
    (⟨fun _ _ => true, fun n => n != 0⟩ : ArgosInstall.PkgEnv).attempt 1 = true ∧
    (ArgosInstall.install_pair ⟨fun _ _ => true, fun n => n != 0⟩ 0 "zh" "en").1 =
      false ∧
    ArgosInstall.ensure_pair
      ⟨true, fun _ _ => false, fun _ _ => true, fun n => n != 0⟩ 0 "zh" "en" =
      false :=
  ⟨rfl, rfl, rfl, rfl⟩

/-- C4 amended: the installer calls are exception-wrapped but make exactly
one download+install attempt. install_pair succeeds iff the index lists the
pair and the single attempt succeeds; ensure_pair succeeds iff the import
works and either the pair is already installed or the index lists it and the
single attempt succeeds — a failed first attempt is reported as failure even
when a later attempt would succeed. -/
theorem installers_single_attempt (penv : ArgosInstall.PkgEnv)
    (eenv : ArgosInstall.EnsureEnv) (k : ℕ) (src dst : String) :
    ((ArgosInstall.install_pair penv k src dst).1 = true ↔
      penv.findPkg src dst = true ∧ penv.attempt k = true) ∧
    (ArgosInstall.ensure_pair eenv k src dst = true ↔
      eenv.importOk = true ∧
      (eenv.installedPair src dst = true ∨
       (eenv.indexHasPkg src dst = true ∧ eenv.attempt k = true))) := by
  constructor
  · cases hf : penv.findPkg src dst <;> cases ha : penv.attempt k <;>
      simp [ArgosInstall.install_pair, hf, ha]
  · cases hi : eenv.importOk <;> cases hp : eenv.installedPair src dst <;>
      cases hx : eenv.indexHasPkg src dst <;> cases ha : eenv.attempt k <;>
      simp [ArgosInstall.ensure_pair, hi, hp, hx, ha]

/-- C10: translate_text never fails and falls back to the original text: it
returns text unchanged on empty/whitespace input, when the Argos module is
unavailable, when neither the direct pair nor the full en-bridge exists, and
when the direct attempt fails with no bridge; after a failed direct attempt
it tries the bridge (src→en→dst, src and dst both ≠ en) before giving up. -/
theorem translate_text_fallback (env : ArgosTranslator.ArgosEnv)
    (src dst text : String) :
    (text.trim = "" → ArgosTranslator.translate_text env src dst text = text) ∧
    (env.available = false →
      ArgosTranslator.translate_text env src dst text = text) ∧
    (ArgosTranslator._pair_exists env src dst = false →
      ArgosTranslator._can_bridge env src dst = false →
      ArgosTranslator.translate_text env src dst text = text) ∧
    (ArgosTranslator._pair_exists env src dst = true →
      (ArgosTranslator._translate_direct env src dst text).1 = false →
      ArgosTranslator._can_bridge env src dst = false →
      ArgosTranslator.translate_text env src dst text = text) ∧
    (ArgosTranslator._can_bridge env src dst = true ↔
      (src ≠ "en" ∧ dst ≠ "en" ∧
       ArgosTranslator._pair_exists env src "en" = true ∧
       ArgosTranslator._pair_exists env "en" dst = true)) ∧
    (∀ mid out : String, text.trim ≠ "" → env.available = true →
      (ArgosTranslator._translate_direct env src dst text).1 = false →
      ArgosTranslator._can_bridge env src dst = true →
      ArgosTranslator._translate_direct env src "en" text = (true, mid) →
      mid.trim ≠ "" →
      ArgosTranslator._translate_direct env "en" dst mid = (true, out) →
      ArgosTranslator.translate_text env src dst text = out) := by
  refine ⟨?_, ?_, ?_, ?_, ?_, ?_⟩
  · intro h
    simp [ArgosTranslator.translate_text, h]
  · intro h
    simp [ArgosTranslator.translate_text, h]
  · intro hpair hbridge
    simp [ArgosTranslator.translate_text, hpair, hbridge]
  · intro hpair hdir hbridge
    simp [ArgosTranslator.translate_text, hpair, hdir, hbridge]
  · simp [ArgosTranslator._can_bridge, ArgosTranslator.BRIDGE_LANG, and_assoc]
  · intro mid out hne havail hdir hbridge h1 hmid h2
    simp [ArgosTranslator.translate_text, ArgosTranslator.BRIDGE_LANG, hne, havail,
      hdir, hbridge, h1, hmid, h2]

/-- Witness for C10: with the Argos module unavailable the input text comes
back unchanged. -/
theorem translate_text_fallback_witness :
    (⟨false, fun _ => false, fun _ _ => false, fun _ _ _ => none⟩ :
        ArgosTranslator.ArgosEnv).available = false ∧
    ArgosTranslator.translate_text
      ⟨false, fun _ => false, fun _ _ => false, fun _ _ _ => none⟩ "zh" "ja" "hi" =
      "hi" :=
  ⟨rfl,
   (translate_text_fallback
      ⟨false, fun _ => false, fun _ _ => false, fun _ _ _ => none⟩
      "zh" "ja" "hi").2.1 rfl⟩

/-- Helper: getD with a valid index is a member of the list. -/
theorem getD_mem_of_lt {x : List ℤ} {i : ℕ} (h : i < x.length) : x.getD i 0 ∈ x := by
  rw [List.getD_eq_getElem x 0 h]
  exact List.getElem_mem h

/-- Helper: truncation toward zero stays inside integer bounds. -/
theorem ratTrunc_bounds {lo hi : ℤ} {q : ℚ} (h1 : (lo:ℚ) ≤ q) (h2 : q ≤ (hi:ℚ)) :
    lo ≤ MicrophoneRecord.ratTrunc q ∧ MicrophoneRecord.ratTrunc q ≤ hi := by
  unfold MicrophoneRecord.ratTrunc
  by_cases h : 0 ≤ q
  · rw [if_pos h]
    exact ⟨Int.le_floor.mpr h1,
      le_trans (Int.floor_le_floor h2) (le_of_eq (Int.floor_intCast hi))⟩
  · rw [if_neg h]
    constructor
    · calc lo = ⌈(lo:ℚ)⌉ := (Int.ceil_intCast lo).symm
        _ ≤ ⌈q⌉ := Int.ceil_le_ceil h1
    · exact Int.ceil_le.mpr h2

/-- Helper: a linearly interpolated value lies within any bounds holding for
all samples. -/
theorem interpUniform_bounds (x : List ℤ) (n_out j : ℕ) (lo hi : ℤ)
    (hx : x ≠ []) (h : ∀ v ∈ x, lo ≤ v ∧ v ≤ hi) :
    (lo : ℚ) ≤ MicrophoneRecord.interpUniform x x.length n_out j ∧
    MicrophoneRecord.interpUniform x x.length n_out j ≤ (hi : ℚ) := by
  have hn : 0 < x.length := List.length_pos.mpr hx
  simp only [MicrophoneRecord.interpUniform]
  set t : ℚ := (j : ℚ) * (x.length : ℚ) / (n_out : ℚ) with ht
  have ht0 : 0 ≤ t := by positivity
  by_cases hc : (x.length : ℚ) - 1 ≤ t
  · rw [if_pos hc]
    have hmem := h _ (getD_mem_of_lt (Nat.sub_lt hn Nat.one_pos))
    exact ⟨Int.cast_le.mpr hmem.1, Int.cast_le.mpr hmem.2⟩
  · rw [if_neg hc]
    have hfl0 : 0 ≤ ⌊t⌋ := Int.floor_nonneg.mpr ht0
    have e : ((⌊t⌋.toNat : ℕ) : ℚ) = ((⌊t⌋ : ℤ) : ℚ) := by
      rw [← Int.cast_natCast, Int.toNat_of_nonneg hfl0]
    have hti : ((⌊t⌋.toNat : ℕ) : ℚ) ≤ t := by rw [e]; exact Int.floor_le t
    have hti1 : t < ((⌊t⌋.toNat : ℕ) : ℚ) + 1 := by rw [e]; exact Int.lt_floor_add_one t
    have hlt : ((⌊t⌋.toNat : ℕ) : ℚ) < (x.length : ℚ) - 1 :=
      lt_of_le_of_lt hti (not_le.mp hc)
    have hi1n : ⌊t⌋.toNat + 1 < x.length := by
      have hq : ((⌊t⌋.toNat : ℕ) : ℚ) + 1 < (x.length : ℚ) := by linarith
      exact_mod_cast hq
    have hin : ⌊t⌋.toNat < x.length := Nat.lt_of_succ_lt hi1n
    have ha := h _ (getD_mem_of_lt hin)
    have hb := h _ (getD_mem_of_lt hi1n)
    have ha1 : (lo:ℚ) ≤ ((x.getD (⌊t⌋.toNat) 0 : ℤ) : ℚ) := Int.cast_le.mpr ha.1
    have ha2 : ((x.getD (⌊t⌋.toNat) 0 : ℤ) : ℚ) ≤ (hi:ℚ) := Int.cast_le.mpr ha.2
    have hb1 : (lo:ℚ) ≤ ((x.getD (⌊t⌋.toNat + 1) 0 : ℤ) : ℚ) := Int.cast_le.mpr hb.1
    have hb2 : ((x.getD (⌊t⌋.toNat + 1) 0 : ℤ) : ℚ) ≤ (hi:ℚ) := Int.cast_le.mpr hb.2
    have hu0 : 0 ≤ t - ((⌊t⌋.toNat : ℕ) : ℚ) := by linarith
    have hu1 : t - ((⌊t⌋.toNat : ℕ) : ℚ) ≤ 1 := by linarith
    constructor
    · nlinarith [mul_nonneg hu0 (sub_nonneg.mpr hb1),
        mul_nonneg (sub_nonneg.mpr hu1) (sub_nonneg.mpr ha1)]
    · nlinarith [mul_nonneg hu0 (sub_nonneg.mpr hb2),
        mul_nonneg (sub_nonneg.mpr hu1) (sub_nonneg.mpr ha2)]

/-- Helper: resampling preserves any bounds holding for all input samples. -/
theorem resample_linear_bounds (x : List ℤ) (sr_in sr_out : ℕ) (lo hi : ℤ)
    (h : ∀ v ∈ x, lo ≤ v ∧ v ≤ hi) :
    ∀ v ∈ MicrophoneRecord._resample_linear x sr_in sr_out, lo ≤ v ∧ v ≤ hi := by
  unfold MicrophoneRecord._resample_linear
  by_cases hid : sr_in = sr_out ∨ x = []
  · rw [if_pos hid]; exact h
  · rw [if_neg hid]
    intro v hv
    simp only [List.mem_map, List.mem_range] at hv
    obtain ⟨j, _, rfl⟩ := hv
    have hx : x ≠ [] := fun hnil => hid (Or.inr hnil)
    obtain ⟨l1, l2⟩ := interpUniform_bounds x _ j lo hi hx h
    exact ratTrunc_bounds l1 l2

/-- C5: MicrophoneRecorder.stop drains the whole queue (the queue is empty
and recording is off afterwards) and returns the concatenation of the
drained chunks in enqueue order, resampled from the stream input rate to
16000 Hz as a flat int16 array — the empty array when no chunks were queued
— with every output sample inside any bounds holding for the queued
samples. -/
theorem microphone_stop_spec (s : MicrophoneRecord.MicState) :
    s.stop.2.recording = false ∧
    s.stop.2.queue = [] ∧
    s.stop.1 = MicrophoneRecord._resample_linear s.queue.flatten s.sr_in 16000 ∧
    (s.queue = [] → s.stop.1 = []) ∧
    (∀ lo hi : ℤ, (∀ v ∈ s.queue.flatten, lo ≤ v ∧ v ≤ hi) →
      ∀ v ∈ s.stop.1, lo ≤ v ∧ v ≤ hi) := by
  have h2 : s.stop.2 = { s with recording := false, queue := [] } := by
    simp only [MicrophoneRecord.MicState.stop]
    split <;> rfl
  have h1 : s.stop.1 =
      MicrophoneRecord._resample_linear s.queue.flatten s.sr_in 16000 := by
    simp only [MicrophoneRecord.MicState.stop]
    by_cases hq : s.queue.isEmpty
    · rw [if_pos hq]
      have hqe : s.queue = [] := by simpa using hq
      simp [hqe, MicrophoneRecord._resample_linear]
    · rw [if_neg hq]
      by_cases hsr : s.sr_in ≠ 16000
      · rw [if_pos hsr]
      · rw [if_neg hsr]
        push_neg at hsr
        unfold MicrophoneRecord._resample_linear
        rw [if_pos (Or.inl hsr)]
  refine ⟨by rw [h2], by rw [h2], h1, ?_, ?_⟩
  · intro hq
    rw [h1, hq]
    simp [MicrophoneRecord._resample_linear]
  · intro lo hi hall
    rw [h1]
    exact resample_linear_bounds _ _ _ lo hi hall

/-- Witness for C5: empty queue gives the empty array; a drained two-chunk
queue at 16 kHz keeps its samples within the given bounds. -/
theorem microphone_stop_spec_witness :
    (⟨true, [], 8000⟩ : MicrophoneRecord.MicState).stop.1 = [] ∧
    ∀ v ∈ (⟨true, [[1, 2], [3]], 16000⟩ : MicrophoneRecord.MicState).stop.1,
      (-5 : ℤ) ≤ v ∧ v ≤ 5 :=
  ⟨(microphone_stop_spec ⟨true, [], 8000⟩).2.2.2.1 rfl,
   (microphone_stop_spec ⟨true, [[1, 2], [3]], 16000⟩).2.2.2.2 (-5) 5 (by decide)⟩

/-- Helper: the PTT projection distributes over append. -/
theorem pttProj_append (l1 l2 : List Keyboard.CB) :
    Keyboard.pttProj (l1 ++ l2) = Keyboard.pttProj l1 ++ Keyboard.pttProj l2 := by
  simp [Keyboard.pttProj]

/-- Helper: the backspace press clause either leaves state and output alone
or, exactly when PTT was inactive and the key is Backspace, emits pttDown and
activates. -/
theorem pressTail_cases (a : Bool) (k : Keyboard.PKey) :
    Keyboard.pressTail a k = ([], a) ∨
    (a = false ∧ k = Keyboard.PKey.backspace ∧
     Keyboard.pressTail a k = ([Keyboard.CB.pttDown], true)) := by
  unfold Keyboard.pressTail
  by_cases h : k = Keyboard.PKey.backspace ∧ ¬a
  · right
    refine ⟨?_, h.1, by rw [if_pos h]⟩
    cases a
    · rfl
    · exact absurd rfl h.2
  · left
    rw [if_neg h]

/-- Helper: the backspace release clause either leaves state and output alone
or, exactly when PTT was active and the key is Backspace, emits pttUp and
deactivates. -/
theorem releaseTail_cases (a : Bool) (k : Keyboard.PKey) :
    Keyboard.releaseTail a k = ([], a, false) ∨
    (a = true ∧ k = Keyboard.PKey.backspace ∧
     Keyboard.releaseTail a k = ([Keyboard.CB.pttUp], false, false)) := by
  unfold Keyboard.releaseTail
  by_cases h : k = Keyboard.PKey.backspace ∧ a
  · right
    exact ⟨h.2, h.1, by rw [if_pos h]⟩
  · left
    rw [if_neg h]

/-- Helper: a press step either emits no PTT callback and keeps the PTT
state, or emits exactly pttDown from the inactive state and activates. -/
theorem onPress_ptt_cases (a : Bool) (k : Keyboard.PKey) :
    (Keyboard.pttProj (Keyboard.onPress a k).1 = [] ∧ (Keyboard.onPress a k).2 = a) ∨
    (a = false ∧ k = Keyboard.PKey.backspace ∧
     (Keyboard.onPress a k).1 = [Keyboard.CB.pttDown] ∧
     (Keyboard.onPress a k).2 = true) := by
  unfold Keyboard.onPress
  by_cases hn : k = Keyboard.PKey.numLock
  · left
    rw [if_pos hn]
    exact ⟨rfl, rfl⟩
  · rw [if_neg hn]
    have htail : _ := pressTail_cases a k
    cases hc : Keyboard._normalize_char k with
    | some c =>
      dsimp only
      by_cases hd : c.isDigit
      · left
        rw [if_pos hd]
        exact ⟨rfl, rfl⟩
      · rw [if_neg hd]
        rcases htail with h | ⟨ha, hk, h⟩
        · left; rw [h]; exact ⟨rfl, rfl⟩
        · right; rw [h]; exact ⟨ha, hk, rfl, rfl⟩
    | none =>
      dsimp only
      rcases htail with h | ⟨ha, hk, h⟩
      · left; rw [h]; exact ⟨rfl, rfl⟩
      · right; rw [h]; exact ⟨ha, hk, rfl, rfl⟩

/-- Helper: a release step either emits no PTT callback and keeps the PTT
state, or emits exactly pttUp from the active state and deactivates. -/
theorem onRelease_ptt_cases (a : Bool) (k : Keyboard.PKey) :
    (Keyboard.pttProj (Keyboard.onRelease a k).1 = [] ∧
     (Keyboard.onRelease a k).2.1 = a) ∨
    (a = true ∧ k = Keyboard.PKey.backspace ∧
     (Keyboard.onRelease a k).1 = [Keyboard.CB.pttUp] ∧
     (Keyboard.onRelease a k).2.1 = false) := by
  unfold Keyboard.onRelease
  by_cases he : k = Keyboard.PKey.esc
  · left
    rw [if_pos he]
    exact ⟨rfl, rfl⟩
  · rw [if_neg he]
    by_cases hn : k = Keyboard.PKey.numLock
    · left
      rw [if_pos hn]
      exact ⟨rfl, rfl⟩
    · rw [if_neg hn]
      have htail : _ := releaseTail_cases a k
      cases hc : Keyboard._normalize_char k with
      | some c =>
        dsimp only
        by_cases hd : c = '.'
        · left
          rw [if_pos hd]
          exact ⟨rfl, rfl⟩
        · rw [if_neg hd]
          rcases htail with h | ⟨ha, hk, h⟩
          · left; rw [h]; exact ⟨rfl, rfl⟩
          · right; rw [h]; exact ⟨ha, hk, rfl, rfl⟩
      | none =>
        dsimp only
        rcases htail with h | ⟨ha, hk, h⟩
        · left; rw [h]; exact ⟨rfl, rfl⟩
        · right; rw [h]; exact ⟨ha, hk, rfl, rfl⟩

/-- Helper: the PTT callbacks of any listener run alternate correctly from
the starting PTT state. -/
theorem run_alt (events : List Keyboard.KeyEvent) : ∀ a : Bool,
    Keyboard.Alt a (Keyboard.pttProj (Keyboard.run a events)) := by
  induction events with
  | nil => intro a; cases a <;> exact trivial
  | cons e rest ih =>
    intro a
    cases e with
    | press k =>
      simp only [Keyboard.run, pttProj_append]
      rcases onPress_ptt_cases a k with ⟨h1, h2⟩ | ⟨ha, _, h1, h2⟩
      · rw [h1, h2]
        simpa using ih a
      · subst ha
        rw [h1, h2]
        exact ih true
    | release k =>
      simp only [Keyboard.run]
      by_cases hstop : (Keyboard.onRelease a k).2.2
      · rw [if_pos hstop]
        rcases onRelease_ptt_cases a k with ⟨h1, _⟩ | ⟨ha, _, h1, _⟩
        · rw [h1]; cases a <;> exact trivial
        · subst ha
          rw [h1]
          exact trivial
      · rw [if_neg hstop, pttProj_append]
        rcases onRelease_ptt_cases a k with ⟨h1, h2⟩ | ⟨ha, _, h1, h2⟩
        · rw [h1, h2]
          simpa using ih a
        · subst ha
          rw [h1, h2]
          exact ih false

/-- C8: the push-to-talk callbacks strictly alternate starting with
on_ptt_down: pttDown is emitted only on a Backspace press while PTT is
inactive (and activates it), pttUp only on a Backspace release while PTT is
active (and deactivates it), and over every event sequence processed by the
listener the emitted PTT callbacks alternate pttDown, pttUp, pttDown, ... so
neither fires twice without the other in between. -/
theorem ptt_alternation :
    (∀ (a : Bool) (k : Keyboard.PKey),
      Keyboard.CB.pttDown ∈ (Keyboard.onPress a k).1 →
        k = Keyboard.PKey.backspace ∧ a = false ∧
        (Keyboard.onPress a k).2 = true) ∧
    (∀ (a : Bool) (k : Keyboard.PKey),
      Keyboard.CB.pttUp ∉ (Keyboard.onPress a k).1) ∧
    (∀ (a : Bool) (k : Keyboard.PKey),
      Keyboard.CB.pttUp ∈ (Keyboard.onRelease a k).1 →
        k = Keyboard.PKey.backspace ∧ a = true ∧
        (Keyboard.onRelease a k).2.1 = false) ∧
    (∀ (a : Bool) (k : Keyboard.PKey),
      Keyboard.CB.pttDown ∉ (Keyboard.onRelease a k).1) ∧
    (∀ events : List Keyboard.KeyEvent,
      Keyboard.Alt false (Keyboard.pttProj (Keyboard.run false events))) := by
  refine ⟨?_, ?_, ?_, ?_, fun events => run_alt events false⟩
  · intro a k hmem
    rcases onPress_ptt_cases a k with ⟨h1, _⟩ | ⟨ha, hk, _, h2⟩
    · have hp : Keyboard.CB.pttDown ∈ Keyboard.pttProj (Keyboard.onPress a k).1 :=
        List.mem_filter.mpr ⟨hmem, by decide⟩
      rw [h1] at hp
      exact absurd hp (List.not_mem_nil _)
    · exact ⟨hk, ha, h2⟩
  · intro a k hmem
    rcases onPress_ptt_cases a k with ⟨h1, _⟩ | ⟨_, _, h1, _⟩
    · have hp : Keyboard.CB.pttUp ∈ Keyboard.pttProj (Keyboard.onPress a k).1 :=
        List.mem_filter.mpr ⟨hmem, by decide⟩
      rw [h1] at hp
      exact absurd hp (List.not_mem_nil _)
    · rw [h1] at hmem
      simp at hmem
  · intro a k hmem
    rcases onRelease_ptt_cases a k with ⟨h1, _⟩ | ⟨ha, hk, _, h2⟩
    · have hp : Keyboard.CB.pttUp ∈ Keyboard.pttProj (Keyboard.onRelease a k).1 :=
        List.mem_filter.mpr ⟨hmem, by decide⟩
      rw [h1] at hp
      exact absurd hp (List.not_mem_nil _)
    · exact ⟨hk, ha, h2⟩
  · intro a k hmem
    rcases onRelease_ptt_cases a k with ⟨h1, _⟩ | ⟨_, _, h1, _⟩
    · have hp : Keyboard.CB.pttDown ∈ Keyboard.pttProj (Keyboard.onRelease a k).1 :=
        List.mem_filter.mpr ⟨hmem, by decide⟩
      rw [h1] at hp
      exact absurd hp (List.not_mem_nil _)
    · rw [h1] at hmem
      simp at hmem

/-- Witness for C8: a Backspace press while inactive emits pttDown and
activates PTT; a full hold-release cycle alternates correctly. -/
theorem ptt_alternation_witness :
    Keyboard.CB.pttDown ∈ (Keyboard.onPress false Keyboard.PKey.backspace).1 ∧
    (Keyboard.PKey.backspace = Keyboard.PKey.backspace ∧ false = false ∧
     (Keyboard.onPress false Keyboard.PKey.backspace).2 = true) ∧
    Keyboard.Alt false (Keyboard.pttProj (Keyboard.run false
      [Keyboard.KeyEvent.press Keyboard.PKey.backspace,
       Keyboard.KeyEvent.release Keyboard.PKey.backspace])) :=
  ⟨by decide,
   ptt_alternation.1 false Keyboard.PKey.backspace (by decide),
   ptt_alternation.2.2.2.2
     [Keyboard.KeyEvent.press Keyboard.PKey.backspace,
      Keyboard.KeyEvent.release Keyboard.PKey.backspace]⟩
